import Mathlib

/-!
Verification of the go-enet-sharp binding layer (host.go, peer.go, address.go)
against its natural-language specification.  Go byte slices are modelled as
`List Nat` (each element a byte value), a nil slice as `none : Option (List Nat)`,
Go `error` results as `Option String` (`none` = nil error), and the C heap that
`SetData`/`GetData` manage through `C.CBytes`/`C.free`/`C.GoBytes` as an explicit
pointer-indexed map together with a log of freed pointers.
-/

namespace GoEnetSharp

/-- `uint32(n)`: Go's conversion of an integer to `uint32` (wraps modulo 2^32). -/
def uint32Of (n : Nat) : Nat := n % 4294967296

/-- `binary.LittleEndian.PutUint32`: the four little-endian bytes of `n`
(written into the first four bytes of a buffer). -/
def putUint32LE (n : Nat) : List Nat :=
  [n % 256, n / 256 % 256, n / 65536 % 256, n / 16777216 % 256]

/-- `binary.LittleEndian.Uint32`: read a `uint32` from the first four bytes of a
buffer (little endian). -/
def leUint32 (l : List Nat) : Nat :=
  match l with
  | b0 :: b1 :: b2 :: b3 :: _ => b0 % 256 + 256 * (b1 % 256) + 65536 * (b2 % 256) + 16777216 * (b3 % 256)
  | _ => 0

/-- cgo's `C.int(x)` applied to a Go `uint32` value: two's-complement
reinterpretation of the low 32 bits as a signed 32-bit integer. -/
def int32OfUint32 (n : Nat) : Int :=
  if n % 4294967296 < 2147483648 then ((n % 4294967296 : Nat) : Int)
  else ((n % 4294967296 : Nat) : Int) - 4294967296

/-- `math.MaxUint32`. -/
def maxUint32 : Nat := 4294967295

/-- The C-side state a peer's `data` slot touches: the `cPeer.data` pointer
(`none` = NULL), the C heap as a map from pointer to allocated block, the next
fresh allocation address, and the log of pointers passed to `C.free`. -/
structure PeerMem where
  slot : Option Nat
  heap : Nat → Option (List Nat)
  nextPtr : Nat
  freed : List Nat

/-- `C.free(p)`: the block at `p` is deallocated and the pointer recorded as freed. -/
def freeBlock (st : PeerMem) (p : Nat) : PeerMem :=
  { st with heap := fun q => if q = p then none else st.heap q, freed := st.freed ++ [p] }

/-- `C.CBytes(b)`: copy `b` into freshly allocated C memory, returning the pointer. -/
def cBytes (st : PeerMem) (b : List Nat) : PeerMem × Nat :=
  ({ st with heap := fun q => if q = st.nextPtr then some b else st.heap q,
             nextPtr := st.nextPtr + 1 }, st.nextPtr)

/-- `enetPeer.SetData` (peer.go): panics (`none`) when `len(data) > math.MaxUint32`;
otherwise frees any previously stored block, then either clears the slot (nil
input) or stores a 4-byte little-endian length header followed by the data in
fresh C memory. -/
def SetData (st : PeerMem) (data : Option (List Nat)) : Option PeerMem :=
  let n := match data with | none => 0 | some l => l.length
  if n > maxUint32 then none
  else
    let st1 := match st.slot with
      | some p => freeBlock st p
      | none => st
    match data with
    | none => some { st1 with slot := none }
    | some l =>
        let b := putUint32LE (uint32Of l.length) ++ l
        let alloc := cBytes st1 b
        some { alloc.1 with slot := some alloc.2 }

/-- `enetPeer.GetData` (peer.go): returns nil (`some none`) when the slot pointer
is NULL; otherwise reads the 4-byte little-endian length header and calls
`C.GoBytes` with that length converted to `C.int`.  A negative `C.int` length
makes `C.GoBytes` panic (modelled by the outer `none`); reading through a
dangling pointer is likewise undefined (`none`). -/
def GetData (st : PeerMem) : Option (Option (List Nat)) :=
  match st.slot with
  | none => some none
  | some p =>
    match st.heap p with
    | none => none
    | some blob =>
        let n32 := leUint32 (blob.take 4)
        let ci := int32OfUint32 n32
        if ci < 0 then none
        else some (some ((blob.drop 4).take n32))

/-- An initial peer state: NULL data slot, empty C heap. -/
def initMem : PeerMem := ⟨none, fun _ => none, 0, []⟩

/-- A peer state with a stored data block at pointer 5. -/
def stW : PeerMem := ⟨some 5, fun q => if q = 5 then some [1, 0, 0, 0, 7] else none, 6, []⟩

/-- The state after `SetData(nil)` on `stW`: slot NULL, block 5 freed. -/
def stW1 : PeerMem :=
  ⟨none, fun q => if q = 5 then none else if q = 5 then some [1, 0, 0, 0, 7] else none, 6, [5]⟩

/-! Address (address.go): a mutable wrapper over the native ENetAddress struct,
modelled by its observable host-name and port fields.  `enet_address_set_hostname`
records the requested host for the address and `enet_address_get_ip` reads it
back; the port field is written directly. -/

structure ENetAddress where
  host : String
  port : Nat

/-- `enetAddress.SetHost`: writes the host name through `enet_address_set_hostname`. -/
def SetHost (a : ENetAddress) (hostname : String) : ENetAddress :=
  { a with host := hostname }

/-- `enetAddress.SetHostAny`: binds to the wildcard host `"::"`. -/
def SetHostAny (a : ENetAddress) : ENetAddress := SetHost a "::"

/-- `enetAddress.SetPort`: writes the port field of the native struct. -/
def SetPort (a : ENetAddress) (port : Nat) : ENetAddress :=
  { a with port := port }

/-- `enetAddress.GetPort`: reads the port field. -/
def GetPort (a : ENetAddress) : Nat := a.port

/-- `enetAddress.String`: reads the address back through `enet_address_get_ip`. -/
def addrString (a : ENetAddress) : String := a.host

/-- `NewAddress`: zero struct, then `SetHost(ip)`, then `SetPort(port)`. -/
def NewAddress (ip : String) (port : Nat) : ENetAddress :=
  SetPort (SetHost ⟨"", 0⟩ ip) port

/-- `NewListenAddress`: zero struct, then `SetHostAny()`, then `SetPort(port)`. -/
def NewListenAddress (port : Nat) : ENetAddress :=
  SetPort (SetHostAny ⟨"", 0⟩) port

/-! Host statistics (host.go): the four cumulative counter fields of the native
ENetHost struct; the getters read them through the corresponding
`enet_host_get_*` accessors and the reset methods zero one field each. -/

structure CHostStats where
  totalSentData : Nat
  totalReceivedData : Nat
  totalSentPackets : Nat
  totalReceivedPackets : Nat

/-- `enetHost.GetBytesSent` via `enet_host_get_bytes_sent`. -/
def GetBytesSent (h : CHostStats) : Nat := h.totalSentData

/-- `enetHost.GetBytesReceived` via `enet_host_get_bytes_received`. -/
def GetBytesReceived (h : CHostStats) : Nat := h.totalReceivedData

/-- `enetHost.GetPacketsSent` via `enet_host_get_packets_sent`. -/
def GetPacketsSent (h : CHostStats) : Nat := h.totalSentPackets

/-- `enetHost.GetPacketsReceived` via `enet_host_get_packets_received`. -/
def GetPacketsReceived (h : CHostStats) : Nat := h.totalReceivedPackets

/-- `enetHost.ResetBytesSent`: `host.cHost.totalSentData = 0`. -/
def ResetBytesSent (h : CHostStats) : CHostStats := { h with totalSentData := 0 }

/-- `enetHost.ResetBytesReceived`: `host.cHost.totalReceivedData = 0`. -/
def ResetBytesReceived (h : CHostStats) : CHostStats := { h with totalReceivedData := 0 }

/-- `enetHost.ResetPacketsSent`: `host.cHost.totalSentPackets = 0`. -/
def ResetPacketsSent (h : CHostStats) : CHostStats := { h with totalSentPackets := 0 }

/-- `enetHost.ResetPacketsReceived`: `host.cHost.totalReceivedPackets = 0`. -/
def ResetPacketsReceived (h : CHostStats) : CHostStats := { h with totalReceivedPackets := 0 }

/-! Packets and sends (peer.go SendBytes/SendString/SendPacket,
host.go BroadcastBytes/BroadcastString/BroadcastPacket).  The native send calls
are external; their integer result is captured as a parameter, and the packets
handed to the native layer are logged so that "no send occurs" is observable. -/

/-- Modelled from the spec: a `Packet` (packet.go is not under src/) is an
immutable byte payload plus delivery flags. -/
structure Packet where
  data : List Nat
  flags : Nat
deriving DecidableEq

/-- A record of one packet handed to the native send layer. -/
structure Sent where
  packet : Packet
  channel : Nat

/-- Modelled from the spec: `NewPacket` (packet.go is not under src/) builds a
Packet from a byte slice and flags through the native packet creation, and
returns an error when that creation fails; `createOk` captures the native
call's outcome. -/
def NewPacket (data : List Nat) (flags : Nat) (createOk : Bool) : Except String Packet :=
  if createOk then .ok ⟨data, flags⟩ else .error "enet: unable to create packet"

/-- `enetPeer.SendPacket`: calls `C.enet_peer_send` (whose integer result
`nativeResult` is discarded) and returns a nil error unconditionally. -/
def SendPacket (p : Packet) (channel : Nat) (_nativeResult : Int) :
    Option String × List Sent :=
  (none, [⟨p, channel⟩])

/-- `enetHost.BroadcastPacket`: calls `C.enet_host_broadcast` and returns a nil
error unconditionally. -/
def BroadcastPacket (p : Packet) (channel : Nat) : Option String × List Sent :=
  (none, [⟨p, channel⟩])

/-- `enetPeer.SendBytes`: `NewPacket(data, flags)`, returning its error on
failure, otherwise `SendPacket(packet, channel)`. -/
def SendBytes (data : List Nat) (channel : Nat) (flags : Nat) (createOk : Bool)
    (nativeResult : Int) : Option String × List Sent :=
  match NewPacket data flags createOk with
  | .error e => (some e, [])
  | .ok p => SendPacket p channel nativeResult

/-- `enetPeer.SendString`: `NewPacket([]byte(str), flags)`, returning its error
on failure, otherwise `SendPacket(packet, channel)`; the string is its byte
sequence. -/
def SendString (str : List Nat) (channel : Nat) (flags : Nat) (createOk : Bool)
    (nativeResult : Int) : Option String × List Sent :=
  match NewPacket str flags createOk with
  | .error e => (some e, [])
  | .ok p => SendPacket p channel nativeResult

/-- `enetHost.BroadcastBytes`: `NewPacket(data, flags)`, returning its error on
failure, otherwise `BroadcastPacket(packet, channel)`. -/
def BroadcastBytes (data : List Nat) (channel : Nat) (flags : Nat) (createOk : Bool) :
    Option String × List Sent :=
  match NewPacket data flags createOk with
  | .error e => (some e, [])
  | .ok p => BroadcastPacket p channel

/-- `enetHost.BroadcastString`: `NewPacket([]byte(str), flags)`, returning its
error on failure, otherwise `BroadcastPacket(packet, channel)`. -/
def BroadcastString (str : List Nat) (channel : Nat) (flags : Nat) (createOk : Bool) :
    Option String × List Sent :=
  match NewPacket str flags createOk with
  | .error e => (some e, [])
  | .ok p => BroadcastPacket p channel

/-! Host construction (host.go NewHost) and the service loop (host.go Service).
The native `enet_host_create` and `enet_host_service` calls are external; their
outcomes are captured as parameters. -/

/-- An opaque native `ENetHost` handle. -/
structure CHost where
  id : Nat

/-- The Go-side host wrapping the native handle. -/
structure EnetHost where
  cHost : CHost

/-- `NewHost` (host.go): a nil address is passed through as a NULL `cAddr`;
`create` captures the outcome of `enet_host_create` on the passed arguments; a
NULL native host yields an error, otherwise the wrapped host is returned. -/
def NewHost (addr : Option ENetAddress) (peerCount channelLimit : Nat)
    (incomingBandwidth outgoingBandwidth : Nat) (bufferLimit : Int)
    (create : Option ENetAddress → Nat → Nat → Nat → Nat → Int → Option CHost) :
    Except String EnetHost :=
  let cAddr : Option ENetAddress := match addr with
    | none => none
    | some a => some a
  match create cAddr peerCount channelLimit incomingBandwidth outgoingBandwidth bufferLimit with
  | none => .error "unable to create host"
  | some h => .ok ⟨h⟩

/-- Modelled from the spec: the type tag of a native ENetEvent (event.go is not
under src/): none, connect, disconnect, or receive. -/
inductive EventType where
  | evNone
  | evConnect
  | evDisconnect
  | evReceive
deriving DecidableEq

/-- Modelled from the spec: the native ENetEvent struct that
`enet_host_service` fills (event.go is not under src/): the type tag plus the
associated peer, channel, disconnect data and received packet. -/
structure CEvent where
  etype : EventType
  peer : Option Nat
  channelID : Nat
  eventData : Nat
  packet : Option Packet

/-- What one service tick has to report: nothing before the timeout elapses, or
one connect, disconnect or receive. -/
inductive ServiceOutcome where
  | nothing
  | connect (peer : Nat)
  | disconnect (peer : Nat) (eventData : Nat)
  | receive (peer : Nat) (channelID : Nat) (packet : Packet)
deriving DecidableEq

/-- Modelled from the spec: `enet_host_service` fills the event struct from
what the tick has to report; when the timeout elapses with nothing to report it
writes the none tag. -/
def cHostService (out : ServiceOutcome) : CEvent :=
  match out with
  | .nothing => ⟨.evNone, none, 0, 0, none⟩
  | .connect p => ⟨.evConnect, some p, 0, 0, none⟩
  | .disconnect p d => ⟨.evDisconnect, some p, 0, d, none⟩
  | .receive p ch pk => ⟨.evReceive, some p, ch, 0, some pk⟩

/-- `enetHost.Service` (host.go): allocates a fresh event struct, lets the
native call fill it, and returns it; the returned interface value is never nil
(`none`). -/
def Service (out : ServiceOutcome) : Option CEvent :=
  some (cHostService out)

/-! The Packet Codec.  The repository's own marshaling delegates all protocol
framing to the wrapped native library, so no codec source is under src/; the
whole component is modelled from the spec (§4.1): a fixed-layout bidirectional
mapping between typed protocol messages and datagram byte payloads — a type
tag, then the kind-specific fields, then the payload bytes — whose decoder
fails on an unknown type tag or on a declared payload length exceeding the
remaining buffer. -/

/-- Modelled from the spec: the protocol message kinds of the Packet Codec. -/
inductive Message where
  | connect
  | connectAck
  | disconnect
  | disconnectAck
  | ping
  | reliableData (channel : Nat) (sequence : Nat) (payload : List Nat)
  | unreliableData (channel : Nat) (sequence : Nat) (payload : List Nat)
  | unsequenced (channel : Nat) (payload : List Nat)
  | fragmentedData (channel : Nat) (sequence : Nat) (fragmentIndex : Nat)
      (fragmentCount : Nat) (totalLength : Nat) (payload : List Nat)
  | acknowledge (referencedSequence : Nat) (receivedSentTime : Nat)
deriving DecidableEq

/-- A well-formed message: the channel fits in its tag byte, every 32-bit field
fits in four bytes, the payload length fits in its 32-bit length field, and the
payload consists of bytes. -/
def Message.wf : Message → Prop
  | .connect | .connectAck | .disconnect | .disconnectAck | .ping => True
  | .reliableData ch seq p =>
      ch < 256 ∧ seq < 4294967296 ∧ p.length < 4294967296 ∧ ∀ x ∈ p, x < 256
  | .unreliableData ch seq p =>
      ch < 256 ∧ seq < 4294967296 ∧ p.length < 4294967296 ∧ ∀ x ∈ p, x < 256
  | .unsequenced ch p => ch < 256 ∧ p.length < 4294967296 ∧ ∀ x ∈ p, x < 256
  | .fragmentedData ch seq fi fc tl p =>
      ch < 256 ∧ seq < 4294967296 ∧ fi < 4294967296 ∧ fc < 4294967296 ∧
      tl < 4294967296 ∧ p.length < 4294967296 ∧ ∀ x ∈ p, x < 256
  | .acknowledge rs t => rs < 4294967296 ∧ t < 4294967296

instance (m : Message) : Decidable m.wf := by
  cases m <;> simp only [Message.wf] <;> infer_instance

/-- Modelled from the spec: `Codec.Encode` — the fixed-layout encoding: one
type-tag byte, the kind-specific fields (channel as one byte, 32-bit fields as
four little-endian bytes, the payload preceded by its 32-bit length), then the
payload bytes. -/
def Encode (m : Message) : List Nat :=
  match m with
  | .connect => [0]
  | .connectAck => [1]
  | .disconnect => [2]
  | .disconnectAck => [3]
  | .ping => [4]
  | .reliableData ch seq p =>
      5 :: ch % 256 :: (putUint32LE seq ++ putUint32LE p.length ++ p.map (· % 256))
  | .unreliableData ch seq p =>
      6 :: ch % 256 :: (putUint32LE seq ++ putUint32LE p.length ++ p.map (· % 256))
  | .unsequenced ch p =>
      7 :: ch % 256 :: (putUint32LE p.length ++ p.map (· % 256))
  | .fragmentedData ch seq fi fc tl p =>
      8 :: ch % 256 :: (putUint32LE seq ++ putUint32LE fi ++ putUint32LE fc ++
        putUint32LE tl ++ putUint32LE p.length ++ p.map (· % 256))
  | .acknowledge rs t => 9 :: (putUint32LE rs ++ putUint32LE t)

/-- Read one 32-bit little-endian field off the front of a buffer. -/
def readUint32 (l : List Nat) : Option (Nat × List Nat) :=
  match l with
  | b0 :: b1 :: b2 :: b3 :: rest =>
      some (b0 % 256 + 256 * (b1 % 256) + 65536 * (b2 % 256) + 16777216 * (b3 % 256), rest)
  | _ => none

/-- Read a declared number of payload bytes; fails when the declared length
exceeds the remaining buffer (`MalformedMessage`). -/
def readPayload (len : Nat) (l : List Nat) : Option (List Nat × List Nat) :=
  if len ≤ l.length then some (l.take len, l.drop len) else none

/-- Parse a channel-sequence-payload message body (reliable or unreliable
data): one 32-bit sequence, one 32-bit payload length, then the payload. -/
def parseSeqData (mk : Nat → Nat → List Nat → Message) (ch : Nat) (r1 : List Nat) :
    Option (Message × List Nat) :=
  match readUint32 r1 with
  | some (seq, r2) =>
      match readUint32 r2 with
      | some (len, r3) =>
          match readPayload len r3 with
          | some (p, r4) => some (mk ch seq p, r4)
          | none => none
      | none => none
  | none => none

/-- Parse an unsequenced message body: one 32-bit payload length, then the
payload. -/
def parseUnseqData (ch : Nat) (r1 : List Nat) : Option (Message × List Nat) :=
  match readUint32 r1 with
  | some (len, r2) =>
      match readPayload len r2 with
      | some (p, r3) => some (.unsequenced ch p, r3)
      | none => none
  | none => none

/-- Parse a fragmented-data message body: sequence, fragment index, fragment
count and total length as 32-bit fields, then a 32-bit payload length and the
payload. -/
def parseFragData (ch : Nat) (r1 : List Nat) : Option (Message × List Nat) :=
  match readUint32 r1 with
  | some (seq, r2) =>
      match readUint32 r2 with
      | some (fi, r3) =>
          match readUint32 r3 with
          | some (fc, r4) =>
              match readUint32 r4 with
              | some (tl, r5) =>
                  match readUint32 r5 with
                  | some (len, r6) =>
                      match readPayload len r6 with
                      | some (p, r7) => some (.fragmentedData ch seq fi fc tl p, r7)
                      | none => none
                  | none => none
              | none => none
          | none => none
      | none => none
  | none => none

/-- Parse an acknowledge message body: the referenced sequence and the received
sent-time, both 32-bit fields. -/
def parseAck (r1 : List Nat) : Option (Message × List Nat) :=
  match readUint32 r1 with
  | some (rs, r2) =>
      match readUint32 r2 with
      | some (t, r3) => some (.acknowledge rs t, r3)
      | none => none
  | none => none

/-- Parse one message off the front of a buffer, returning the unconsumed tail;
fails on an unknown type tag or a truncated buffer (`MalformedMessage`). -/
def decodeFrom (l : List Nat) : Option (Message × List Nat) :=
  match l with
  | 0 :: rest => some (.connect, rest)
  | 1 :: rest => some (.connectAck, rest)
  | 2 :: rest => some (.disconnect, rest)
  | 3 :: rest => some (.disconnectAck, rest)
  | 4 :: rest => some (.ping, rest)
  | 5 :: ch :: r1 => parseSeqData .reliableData ch r1
  | 6 :: ch :: r1 => parseSeqData .unreliableData ch r1
  | 7 :: ch :: r1 => parseUnseqData ch r1
  | 8 :: ch :: r1 => parseFragData ch r1
  | 9 :: r1 => parseAck r1
  | _ => none

/-- Modelled from the spec: `Codec.Decode` — a datagram carries exactly one
message: parse it and require the whole buffer consumed. -/
def Decode (l : List Nat) : Option Message :=
  match decodeFrom l with
  | some (m, []) => some m
  | _ => none

theorem leUint32_putUint32LE (n : Nat) (rest : List Nat) :
    leUint32 (putUint32LE n ++ rest) = n % 4294967296 := by
  simp only [putUint32LE, leUint32, List.cons_append, List.nil_append]
  omega

theorem int32OfUint32_neg_iff (n : Nat) (h : n < 4294967296) :
    int32OfUint32 n < 0 ↔ 2147483648 ≤ n := by
  simp only [int32OfUint32, Nat.mod_eq_of_lt h]
  split <;> omega

theorem take4_putUint32LE (n : Nat) (rest : List Nat) :
    (putUint32LE n ++ rest).take 4 = putUint32LE n := by
  simp [putUint32LE]

theorem drop4_putUint32LE (n : Nat) (rest : List Nat) :
    (putUint32LE n ++ rest).drop 4 = rest := by
  simp [putUint32LE]

theorem leUint32_put (n : Nat) : leUint32 (putUint32LE n) = n % 4294967296 := by
  simp only [putUint32LE, leUint32]
  omega

theorem SetData_some_eq (st : PeerMem) (d : List Nat) (h : d.length ≤ maxUint32) :
    SetData st (some d) =
      some { slot := some st.nextPtr,
             heap := fun q => if q = st.nextPtr
                       then some (putUint32LE (uint32Of d.length) ++ d)
                       else (match st.slot with
                             | some p => (freeBlock st p).heap
                             | none => st.heap) q,
             nextPtr := st.nextPtr + 1,
             freed := match st.slot with | some p => st.freed ++ [p] | none => st.freed } := by
  have hn : ¬ d.length > maxUint32 := by omega
  cases hs : st.slot <;>
    simp [SetData, hs, freeBlock, cBytes, hn]

/-- C1: storing a byte slice of length at most 2^32 - 1 succeeds, but reading it
back with `GetData` round-trips exactly when the length fits in a signed 32-bit
integer; for lengths in [2^31, 2^32 - 1] the stored `uint32` length wraps
negative under cgo's `C.int` conversion and `C.GoBytes` panics instead of
returning the data. -/
theorem SetData_GetData_roundtrip_characterisation (st : PeerMem) (d : List Nat)
    (h : d.length ≤ 4294967295) :
    ∃ st', SetData st (some d) = some st' ∧
      GetData st' = (if d.length < 2147483648 then some (some d) else none) := by
  refine ⟨_, SetData_some_eq st d h, ?_⟩
  have hu : uint32Of d.length = d.length := Nat.mod_eq_of_lt (by omega)
  simp only [GetData, if_pos rfl, if_true, take4_putUint32LE, drop4_putUint32LE, leUint32_put,
    hu]
  have hmod : d.length % 4294967296 = d.length := Nat.mod_eq_of_lt (by omega)
  rw [hmod]
  by_cases hsm : d.length < 2147483648
  · rw [if_pos hsm, if_neg (by rw [int32OfUint32_neg_iff _ (by omega)]; omega),
      List.take_length]
  · rw [if_neg hsm, if_pos (by rw [int32OfUint32_neg_iff _ (by omega)]; omega)]

/-- C1 witness: a peer data blob of exactly 2^31 bytes is accepted by `SetData`
but `GetData` then fails (the `C.GoBytes` length is negative). -/
theorem SetData_GetData_roundtrip_witness :
    (List.replicate 2147483648 (0:Nat)).length ≤ 4294967295 ∧
    ∃ st', SetData initMem (some (List.replicate 2147483648 0)) = some st' ∧
      GetData st' = none := by
  have h : (List.replicate 2147483648 (0:Nat)).length ≤ 4294967295 := by
    rw [List.length_replicate]; omega
  have h2 := SetData_GetData_roundtrip_characterisation initMem (List.replicate 2147483648 0) h
  rw [if_neg (by rw [List.length_replicate]; omega)] at h2
  exact ⟨h, h2⟩

/-- C9: `SetData` panics exactly when the given slice is longer than 2^32 - 1
bytes; every shorter slice (and the nil slice) is accepted without panicking. -/
theorem SetData_panic_iff (st : PeerMem) (d : List Nat) :
    (SetData st (some d) = none ↔ 4294967295 < d.length) ∧ SetData st none ≠ none := by
  refine ⟨⟨fun hnone => ?_, fun hgt => ?_⟩, ?_⟩
  · by_contra hle
    rw [SetData_some_eq st d (by simp [maxUint32]; omega)] at hnone
    exact Option.noConfusion hnone
  · simp only [SetData]
    rw [if_pos (by simp [maxUint32]; omega)]
  · cases hs : st.slot <;> simp [SetData, maxUint32, hs]

/-- C10: `SetData(nil)` clears the slot and frees the previously stored block;
`GetData` returns nil exactly when the slot is NULL (never set, or last set to
nil); every successful `SetData` call frees the previously stored block before
installing the new one. -/
theorem SetData_frees_and_clears (st : PeerMem) :
    (∀ st', SetData st none = some st' →
       st'.slot = none ∧ ∀ p, st.slot = some p → st'.heap p = none ∧ p ∈ st'.freed) ∧
    (GetData st = some none ↔ st.slot = none) ∧
    (∀ d st' p, SetData st d = some st' → st.slot = some p → p ∈ st'.freed) := by
  refine ⟨?_, ?_, ?_⟩
  · intro st' hset
    cases hs : st.slot with
    | none => simp [SetData, hs, maxUint32] at hset; simp [← hset, hs]
    | some p =>
      simp [SetData, hs, maxUint32, freeBlock] at hset
      subst hset
      simp [hs]
  · cases hs : st.slot with
    | none => simp [GetData, hs]
    | some p =>
      simp only [GetData, hs]
      cases st.heap p with
      | none => simp
      | some blob =>
        by_cases hci : int32OfUint32 (leUint32 (blob.take 4)) < 0 <;> simp [hci]
  · intro d st' p hset hs
    cases d with
    | none =>
      simp [SetData, hs, maxUint32, freeBlock] at hset
      subst hset
      simp
    | some l =>
      by_cases hl : l.length ≤ maxUint32
      · rw [SetData_some_eq st l hl] at hset
        cases hset
        simp [hs]
      · simp only [SetData] at hset
        rw [if_pos (by omega)] at hset
        exact Option.noConfusion hset

/-- C10 witness: on a concrete state with a block stored at pointer 5,
`SetData(nil)` yields a NULL slot with block 5 deallocated and logged as freed. -/
theorem SetData_frees_and_clears_witness :
    stW1.slot = none ∧ stW1.heap 5 = none ∧ 5 ∈ stW1.freed := by
  have h := (SetData_frees_and_clears stW).1 stW1 rfl
  exact ⟨h.1, (h.2 5 rfl).1, (h.2 5 rfl).2⟩

/-- C7 counterexample: an Address is not immutable — calling `SetPort` on an
address constructed with port 1 changes the observed port to 2. -/
theorem Address_SetPort_mutates_counterexample :
    GetPort (SetPort (NewAddress "127.0.0.1" 1) 2) ≠ GetPort (NewAddress "127.0.0.1" 1) := by
  decide

/-- C7 amended: an Address is mutable after construction: `SetPort` replaces
the port (leaving the host unchanged) and `SetHost` replaces the host (leaving
the port unchanged); `GetPort` and `String` observe the last values written,
and `NewAddress ip port` starts at exactly `(ip, port)`. -/
theorem Address_mutators (a : ENetAddress) (p : Nat) (h : String) (ip : String) (q : Nat) :
    GetPort (SetPort a p) = p ∧ (SetPort a p).host = a.host ∧
    (SetHost a h).host = h ∧ GetPort (SetHost a h) = GetPort a ∧
    addrString (SetHost a h) = h ∧
    GetPort (NewAddress ip q) = q ∧ addrString (NewAddress ip q) = ip ∧
    GetPort (NewListenAddress q) = q ∧ addrString (NewListenAddress q) = "::" := by
  simp [GetPort, SetPort, SetHost, SetHostAny, addrString, NewAddress, NewListenAddress]

/-- C4: each reset operation zeroes exactly its own counter and leaves the
other three counters unchanged, for every host state. -/
theorem reset_operations_independent (h : CHostStats) :
    (GetBytesSent (ResetBytesSent h) = 0 ∧
     GetBytesReceived (ResetBytesSent h) = GetBytesReceived h ∧
     GetPacketsSent (ResetBytesSent h) = GetPacketsSent h ∧
     GetPacketsReceived (ResetBytesSent h) = GetPacketsReceived h) ∧
    (GetBytesReceived (ResetBytesReceived h) = 0 ∧
     GetBytesSent (ResetBytesReceived h) = GetBytesSent h ∧
     GetPacketsSent (ResetBytesReceived h) = GetPacketsSent h ∧
     GetPacketsReceived (ResetBytesReceived h) = GetPacketsReceived h) ∧
    (GetPacketsSent (ResetPacketsSent h) = 0 ∧
     GetBytesSent (ResetPacketsSent h) = GetBytesSent h ∧
     GetBytesReceived (ResetPacketsSent h) = GetBytesReceived h ∧
     GetPacketsReceived (ResetPacketsSent h) = GetPacketsReceived h) ∧
    (GetPacketsReceived (ResetPacketsReceived h) = 0 ∧
     GetBytesSent (ResetPacketsReceived h) = GetBytesSent h ∧
     GetBytesReceived (ResetPacketsReceived h) = GetBytesReceived h ∧
     GetPacketsSent (ResetPacketsReceived h) = GetPacketsSent h) := by
  simp [GetBytesSent, GetBytesReceived, GetPacketsSent, GetPacketsReceived,
    ResetBytesSent, ResetBytesReceived, ResetPacketsSent, ResetPacketsReceived]

/-- C2 counterexample: the native send reports failure (negative result), yet
`SendPacket` still returns a nil error — transport failures are not propagated. -/
theorem SendPacket_ignores_native_failure :
    ((-1 : Int) < 0) ∧ (SendPacket ⟨[1], 0⟩ 0 (-1)).1 = none := by
  exact ⟨by decide, rfl⟩

/-- C2 amended: `SendPacket` and `BroadcastPacket` always return a nil error,
whatever the native send reports; the `C.enet_peer_send` result is discarded
and no transport error reaches the caller. -/
theorem SendPacket_always_nil (p : Packet) (channel : Nat) (nativeResult : Int) :
    (SendPacket p channel nativeResult).1 = none ∧ (BroadcastPacket p channel).1 = none := by
  exact ⟨rfl, rfl⟩

/-- C5: the byte/string send and broadcast variants are wrappers over the
single packet-send primitive: when packet construction succeeds they hand the
constructed packet to `SendPacket`/`BroadcastPacket`, when it fails they return
its error and hand nothing to the native layer, and each string variant agrees
with the byte variant on the string's bytes. -/
theorem send_variants_are_wrappers (d : List Nat) (c : Nat) (f : Nat) (ok : Bool)
    (r : Int) :
    (∀ p, NewPacket d f ok = .ok p → SendBytes d c f ok r = SendPacket p c r) ∧
    (∀ e, NewPacket d f ok = .error e → SendBytes d c f ok r = (some e, [])) ∧
    SendString d c f ok r = SendBytes d c f ok r ∧
    (∀ p, NewPacket d f ok = .ok p → BroadcastBytes d c f ok = BroadcastPacket p c) ∧
    (∀ e, NewPacket d f ok = .error e → BroadcastBytes d c f ok = (some e, [])) ∧
    BroadcastString d c f ok = BroadcastBytes d c f ok := by
  refine ⟨fun p hp => ?_, fun e he => ?_, rfl, fun p hp => ?_, fun e he => ?_, rfl⟩
  · simp [SendBytes, hp]
  · simp [SendBytes, he]
  · simp [BroadcastBytes, hp]
  · simp [BroadcastBytes, he]

/-- C5 witness: with packet construction succeeding, `SendBytes` on bytes
`[1, 2]` hands exactly the constructed packet to `SendPacket`; with it failing,
the error comes back and nothing is sent. -/
theorem send_variants_are_wrappers_witness :
    SendBytes [1, 2] 0 1 true 0 = SendPacket ⟨[1, 2], 1⟩ 0 0 ∧
    SendBytes [1, 2] 0 1 false 0 = (some "enet: unable to create packet", []) := by
  exact ⟨(send_variants_are_wrappers [1, 2] 0 1 true 0).1 ⟨[1, 2], 1⟩ rfl,
    (send_variants_are_wrappers [1, 2] 0 1 false 0).2.1 "enet: unable to create packet" rfl⟩

/-- C3: `NewHost` accepts an absent (`none`) bind address — the quantifier
covers it — and returns a host exactly when the native creation returns one:
the result is `ok` with a host iff `enet_host_create` succeeded, and otherwise
it is an error (never both, never neither). -/
theorem NewHost_ok_iff_create_some (addr : Option ENetAddress)
    (pc cl ib ob : Nat) (bl : Int)
    (create : Option ENetAddress → Nat → Nat → Nat → Nat → Int → Option CHost) :
    ((∃ h, NewHost addr pc cl ib ob bl create = .ok h) ↔
      (create addr pc cl ib ob bl).isSome) ∧
    ((∃ h, NewHost addr pc cl ib ob bl create = .ok h) ∨
      (∃ e, NewHost addr pc cl ib ob bl create = .error e)) := by
  have hpass : (match addr with | none => none | some a => some a) = addr := by
    cases addr <;> rfl
  cases hres : create addr pc cl ib ob bl <;>
    simp [NewHost, hpass, hres]

/-- C6: every `Service` call returns exactly one event — never nil — whose tag
is the none sentinel exactly when the tick had nothing to report before the
timeout, and otherwise is connect, disconnect or receive. -/
theorem Service_returns_one_event (out : ServiceOutcome) :
    ∃ e, Service out = some e ∧
      (out = .nothing ↔ e.etype = .evNone) ∧
      (out ≠ .nothing →
        e.etype = .evConnect ∨ e.etype = .evDisconnect ∨ e.etype = .evReceive) := by
  refine ⟨cHostService out, rfl, ?_, ?_⟩ <;>
    cases out <;> simp [cHostService]

/-- C6 witness: a tick with nothing to report yields the none-tagged event, and
a tick reporting a connect yields a connect-tagged event; neither is nil. -/
theorem Service_returns_one_event_witness :
    (∃ e, Service .nothing = some e ∧ e.etype = .evNone) ∧
    (∃ e, Service (.connect 1) = some e ∧
      (e.etype = .evConnect ∨ e.etype = .evDisconnect ∨ e.etype = .evReceive)) := by
  obtain ⟨e1, he1, hiff1, _⟩ := Service_returns_one_event .nothing
  obtain ⟨e2, he2, _, himp2⟩ := Service_returns_one_event (.connect 1)
  exact ⟨⟨e1, he1, hiff1.mp rfl⟩, ⟨e2, he2, himp2 (by decide)⟩⟩

theorem readUint32_put (n : Nat) (rest : List Nat) (h : n < 4294967296) :
    readUint32 (putUint32LE n ++ rest) = some (n, rest) := by
  simp only [putUint32LE, List.cons_append, List.nil_append, readUint32,
    Option.some.injEq, Prod.mk.injEq]
  exact ⟨by omega, trivial⟩

theorem map_mod256_eq_self (p : List Nat) (h : ∀ x ∈ p, x < 256) :
    p.map (· % 256) = p := by
  induction p with
  | nil => rfl
  | cons a t ih =>
    simp only [List.map_cons, List.cons.injEq]
    exact ⟨Nat.mod_eq_of_lt (h a (by simp)),
      ih fun x hx => h x (by simp [hx])⟩

theorem readPayload_exact (p : List Nat) :
    readPayload p.length p = some (p, []) := by
  simp [readPayload]

theorem readUint32_put_nil (n : Nat) (h : n < 4294967296) :
    readUint32 (putUint32LE n) = some (n, []) := by
  have h2 := readUint32_put n [] h
  simpa using h2

theorem decodeFrom_tag5 (ch : Nat) (r1 : List Nat) :
    decodeFrom (5 :: ch :: r1) = parseSeqData .reliableData ch r1 := rfl

theorem decodeFrom_tag6 (ch : Nat) (r1 : List Nat) :
    decodeFrom (6 :: ch :: r1) = parseSeqData .unreliableData ch r1 := rfl

theorem decodeFrom_tag7 (ch : Nat) (r1 : List Nat) :
    decodeFrom (7 :: ch :: r1) = parseUnseqData ch r1 := rfl

theorem decodeFrom_tag8 (ch : Nat) (r1 : List Nat) :
    decodeFrom (8 :: ch :: r1) = parseFragData ch r1 := rfl

theorem decodeFrom_tag9 (r1 : List Nat) :
    decodeFrom (9 :: r1) = parseAck r1 := rfl

theorem parseSeqData_encoding (mk : Nat → Nat → List Nat → Message) (ch seq : Nat)
    (p : List Nat) (hseq : seq < 4294967296) (hlen : p.length < 4294967296) :
    parseSeqData mk ch (putUint32LE seq ++ (putUint32LE p.length ++ p)) =
      some (mk ch seq p, []) := by
  simp [parseSeqData, readUint32_put seq (putUint32LE p.length ++ p) hseq,
    readUint32_put p.length p hlen, readPayload_exact p]

theorem parseUnseqData_encoding (ch : Nat) (p : List Nat) (hlen : p.length < 4294967296) :
    parseUnseqData ch (putUint32LE p.length ++ p) = some (.unsequenced ch p, []) := by
  simp [parseUnseqData, readUint32_put p.length p hlen, readPayload_exact p]

theorem parseFragData_encoding (ch seq fi fc tl : Nat) (p : List Nat)
    (hseq : seq < 4294967296) (hfi : fi < 4294967296) (hfc : fc < 4294967296)
    (htl : tl < 4294967296) (hlen : p.length < 4294967296) :
    parseFragData ch (putUint32LE seq ++ (putUint32LE fi ++ (putUint32LE fc ++
      (putUint32LE tl ++ (putUint32LE p.length ++ p))))) =
      some (.fragmentedData ch seq fi fc tl p, []) := by
  simp [parseFragData,
    readUint32_put seq _ hseq, readUint32_put fi _ hfi, readUint32_put fc _ hfc,
    readUint32_put tl _ htl, readUint32_put p.length p hlen, readPayload_exact p]

theorem parseAck_encoding (rs t : Nat) (hrs : rs < 4294967296) (ht : t < 4294967296) :
    parseAck (putUint32LE rs ++ putUint32LE t) = some (.acknowledge rs t, []) := by
  simp [parseAck, readUint32_put rs (putUint32LE t) hrs, readUint32_put_nil t ht]

theorem Decode_eq_some (l : List Nat) (m : Message) (hd : decodeFrom l = some (m, [])) :
    Decode l = some m := by
  simp [Decode, hd]

/-- C8: the Packet Codec round-trips — decoding the encoding of every
well-formed protocol message yields the message back. -/
theorem Decode_Encode_roundtrip (m : Message) (h : m.wf) : Decode (Encode m) = some m := by
  cases m with
  | connect => rfl
  | connectAck => rfl
  | disconnect => rfl
  | disconnectAck => rfl
  | ping => rfl
  | reliableData ch seq p =>
    obtain ⟨hch, hseq, hlen, hbytes⟩ := h
    have hE : Encode (.reliableData ch seq p) =
        5 :: ch :: (putUint32LE seq ++ (putUint32LE p.length ++ p)) := by
      simp only [Encode, List.append_assoc]
      rw [Nat.mod_eq_of_lt hch, map_mod256_eq_self p hbytes]
    rw [hE]
    exact Decode_eq_some _ _
      (by rw [decodeFrom_tag5, parseSeqData_encoding _ _ _ _ hseq hlen])
  | unreliableData ch seq p =>
    obtain ⟨hch, hseq, hlen, hbytes⟩ := h
    have hE : Encode (.unreliableData ch seq p) =
        6 :: ch :: (putUint32LE seq ++ (putUint32LE p.length ++ p)) := by
      simp only [Encode, List.append_assoc]
      rw [Nat.mod_eq_of_lt hch, map_mod256_eq_self p hbytes]
    rw [hE]
    exact Decode_eq_some _ _
      (by rw [decodeFrom_tag6, parseSeqData_encoding _ _ _ _ hseq hlen])
  | unsequenced ch p =>
    obtain ⟨hch, hlen, hbytes⟩ := h
    have hE : Encode (.unsequenced ch p) = 7 :: ch :: (putUint32LE p.length ++ p) := by
      simp only [Encode]
      rw [Nat.mod_eq_of_lt hch, map_mod256_eq_self p hbytes]
    rw [hE]
    exact Decode_eq_some _ _
      (by rw [decodeFrom_tag7, parseUnseqData_encoding _ _ hlen])
  | fragmentedData ch seq fi fc tl p =>
    obtain ⟨hch, hseq, hfi, hfc, htl, hlen, hbytes⟩ := h
    have hE : Encode (.fragmentedData ch seq fi fc tl p) =
        8 :: ch :: (putUint32LE seq ++ (putUint32LE fi ++ (putUint32LE fc ++
          (putUint32LE tl ++ (putUint32LE p.length ++ p))))) := by
      simp only [Encode, List.append_assoc]
      rw [Nat.mod_eq_of_lt hch, map_mod256_eq_self p hbytes]
    rw [hE]
    exact Decode_eq_some _ _
      (by rw [decodeFrom_tag8, parseFragData_encoding _ _ _ _ _ _ hseq hfi hfc htl hlen])
  | acknowledge rs t =>
    obtain ⟨hrs, ht⟩ := h
    exact Decode_eq_some _ _
      (by rw [show Encode (.acknowledge rs t) = 9 :: (putUint32LE rs ++ putUint32LE t) from rfl,
        decodeFrom_tag9, parseAck_encoding _ _ hrs ht])

/-- C8 witness: a concrete fragmented-data message round-trips through the
codec. -/
theorem Decode_Encode_roundtrip_witness :
    (Message.fragmentedData 2 1 0 4 2000 [7, 8]).wf ∧
    Decode (Encode (.fragmentedData 2 1 0 4 2000 [7, 8])) =
      some (.fragmentedData 2 1 0 4 2000 [7, 8]) := by
  exact ⟨by decide, Decode_Encode_roundtrip _ (by decide)⟩

/-- C9 witness: a one-byte slice is accepted and the nil slice never panics, on
a concrete initial peer state. -/
theorem SetData_panic_iff_witness :
    (SetData initMem (some [1]) = none ↔ 4294967295 < [1].length) ∧
    SetData initMem none ≠ none :=
  SetData_panic_iff initMem [1]

/-- C2 witness: on a concrete packet and native result, both sends report a nil
error. -/
theorem SendPacket_always_nil_witness :
    (SendPacket ⟨[2], 0⟩ 1 (-7)).1 = none ∧ (BroadcastPacket ⟨[2], 0⟩ 1).1 = none :=
  SendPacket_always_nil ⟨[2], 0⟩ 1 (-7)

/-- C3 witness: with a nil bind address and a native creation that succeeds,
`NewHost` returns a host; the claim theorem applied at that concrete input. -/
theorem NewHost_ok_iff_create_some_witness :
    ((∃ h, NewHost none 32 2 0 0 0 (fun _ _ _ _ _ _ => some ⟨1⟩) = .ok h) ↔
      ((fun (_ : Option ENetAddress) (_ _ _ _ : Nat) (_ : Int) =>
        some (CHost.mk 1)) none 32 2 0 0 0).isSome) ∧
    ((∃ h, NewHost none 32 2 0 0 0 (fun _ _ _ _ _ _ => some ⟨1⟩) = .ok h) ∨
      (∃ e, NewHost none 32 2 0 0 0 (fun _ _ _ _ _ _ => some ⟨1⟩) = .error e)) :=
  NewHost_ok_iff_create_some none 32 2 0 0 0 (fun _ _ _ _ _ _ => some ⟨1⟩)

/-- C4 witness: the claim theorem applied at a concrete counter state. -/
theorem reset_operations_independent_witness :
    GetBytesSent (ResetBytesSent ⟨1, 2, 3, 4⟩) = 0 ∧
    GetBytesReceived (ResetBytesSent ⟨1, 2, 3, 4⟩) = GetBytesReceived ⟨1, 2, 3, 4⟩ := by
  have h := reset_operations_independent ⟨1, 2, 3, 4⟩
  exact ⟨h.1.1, h.1.2.1⟩

/-- C7 witness: the amended-claim theorem applied at a concrete address. -/
theorem Address_mutators_witness :
    GetPort (SetPort (ENetAddress.mk "a" 1) 9) = 9 ∧
    (SetHost (ENetAddress.mk "a" 1) "b").host = "b" := by
  have h := Address_mutators ⟨"a", 1⟩ 9 "b" "c" 3
  exact ⟨h.1, h.2.2.1⟩

end GoEnetSharp

